import Mathlib

/-!
Verification of the chat client's input pipeline and conversation
controller.  Strings are modelled as lists of characters; the
JavaScript regular-expression replacements of `sanitizeInput` are
modelled by explicit scanners with the same leftmost, non-overlapping
global-replacement semantics.
-/

/-- Characters removed by the JavaScript trim operation. -/
def jsWhitespace : List Char :=
  [' ', '\t', '\n', '\r', '\x0B', '\x0C'] ++
    ([0xA0, 0x1680, 0x2000, 0x2001, 0x2002, 0x2003, 0x2004, 0x2005, 0x2006,
      0x2007, 0x2008, 0x2009, 0x200A, 0x2028, 0x2029, 0x202F, 0x205F,
      0x3000, 0xFEFF].map Char.ofNat)

/-- Whether a character counts as whitespace for trimming. -/
def isJsWS (c : Char) : Bool := jsWhitespace.contains c

/-- JavaScript String.prototype.trim on a character list. -/
def jsTrim (l : List Char) : List Char :=
  ((l.dropWhile isJsWS).reverse.dropWhile isJsWS).reverse

/-- ASCII lower-casing; matches legacy case-insensitive regex
canonicalisation for the ASCII-only patterns used by the source. -/
def lcChar (c : Char) : Char := c.toLower

/-- Case-insensitive prefix test used by the regex matchers. -/
def ciPfx : List Char → List Char → Bool
  | [], _ => true
  | _ :: _, [] => false
  | p :: ps, c :: cs => (lcChar p == lcChar c) && ciPfx ps cs

/-- JavaScript regex word character: ASCII letter, digit or underscore. -/
def isWordChar (c : Char) : Bool := c.isAlphanum || c == '_'

/-- The literal characters of the script open tag. -/
def scriptOpenChars : List Char := "<script".toList

/-- The literal characters of the script close tag. -/
def scriptCloseChars : List Char := "</script>".toList

/-- The literal characters of the stripped URI scheme. -/
def javascriptSchemeChars : List Char := "javascript:".toList

/-- Scan forward for the first case-insensitive occurrence of the
closing script tag, returning the number of characters consumed up to
and including it.  This models the deterministic behaviour of the
regex part that follows the open tag: segments of non-angle-bracket
characters, each introduced by an angle bracket that does not start a
closing tag, ending at the closing tag itself. -/
def scriptTail : List Char → Option Nat
  | [] => none
  | c :: cs =>
    if ciPfx scriptCloseChars (c :: cs) then some scriptCloseChars.length
    else (scriptTail cs).map (· + 1)

/-- Head matcher for the script-block regex of `sanitizeInput`: the
open tag, a word boundary, then everything through the first closing
tag.  Returns the matched length. -/
def matchScript (s : List Char) : Option Nat :=
  if ciPfx scriptOpenChars s then
    match s.drop scriptOpenChars.length with
    | [] => none
    | c :: cs =>
      if isWordChar c then none
      else (scriptTail (c :: cs)).map (· + scriptOpenChars.length)
  else none

/-- Head matcher for the case-insensitive literal scheme regex. -/
def matchJavascriptScheme (s : List Char) : Option Nat :=
  if ciPfx javascriptSchemeChars s then some javascriptSchemeChars.length
  else none

/-- Head matcher for the inline event-handler attribute regex: the two
letters of the handler marker, one or more word characters, an equals
sign and a double-quoted body. -/
def matchOnAttr (s : List Char) : Option Nat :=
  match s with
  | c1 :: c2 :: rest =>
    if lcChar c1 == 'o' && lcChar c2 == 'n' then
      let w := rest.takeWhile isWordChar
      if w.isEmpty then none
      else
        match rest.drop w.length with
        | '=' :: '"' :: afterQuote =>
          let body := afterQuote.takeWhile (fun c => c != '"')
          match afterQuote.drop body.length with
          | '"' :: _ => some (2 + w.length + 2 + body.length + 1)
          | _ => none
        | _ => none
    else none
  | _ => none

/-- One pass of JavaScript global regexp replacement by the empty
string: scan left to right, delete each match, resume after it.
Fuel-indexed so that it computes by structural recursion; every match
consumes at least one character, so fuel equal to the length of the
input suffices. -/
def scanReplaceAux (m : List Char → Option Nat) : Nat → List Char → List Char
  | _, [] => []
  | 0, c :: cs => c :: cs
  | fuel + 1, c :: cs =>
    match m (c :: cs) with
    | some (n + 1) => scanReplaceAux m fuel (cs.drop n)
    | _ => c :: scanReplaceAux m fuel cs

/-- Global replacement by the empty string of every match of `m`. -/
def scanReplace (m : List Char → Option Nat) (l : List Char) : List Char :=
  scanReplaceAux m l.length l

/-- Definition of `sanitizeInput` from the secure input component: strip script
blocks, strip the javascript URI scheme, strip inline event-handler
attributes, then trim surrounding whitespace. -/
def sanitizeInput (text : List Char) : List Char :=
  jsTrim (scanReplace matchOnAttr
    (scanReplace matchJavascriptScheme (scanReplace matchScript text)))

/-- Per-suffix absence of a match: `m` matches at no position of the
list (including the empty tail). -/
def noMatch (m : List Char → Option Nat) : List Char → Bool
  | [] => (m []).isNone
  | c :: cs => (m (c :: cs)).isNone && noMatch m cs

/-- The maximum accepted message length from the secure input component. -/
def MAX_MESSAGE_LENGTH : Nat := 4000

/-- The minimum interval in milliseconds between accepted submissions. -/
def RATE_LIMIT_DELAY : Int := 1000

/-- The rejection reasons produced by `validateInput`, in source order:
empty message, over-long message, rate-limited message. -/
inductive ValidationError
  | empty
  | tooLong
  | rateLimited
deriving DecidableEq, Repr

/-- Definition of `validateInput` from the secure input component.  `now` is the
value of the millisecond clock at the call and `lastMessageTime` the
stored time of the last accepted submission. -/
def validateInput (text : List Char) (now lastMessageTime : Int) :
    Option ValidationError :=
  if (jsTrim text).isEmpty then some .empty
  else if text.length > MAX_MESSAGE_LENGTH then some .tooLong
  else if now - lastMessageTime < RATE_LIMIT_DELAY then some .rateLimited
  else none

/-- A chat message.  The source stores the identifier as the decimal
string of a millisecond timestamp; it is kept here as the number
itself.  `isUser` is true for user-authored messages and false for
assistant-authored ones. -/
structure Message where
  id : Int
  content : List Char
  isUser : Bool
  timestamp : Int
deriving DecidableEq, Repr

/-- The seeded assistant greeting used at initialisation and by the
new-chat reset, created at clock time `t`. -/
def initialMessage (t : Int) : Message :=
  Message.mk 1 "Hello! I'm DeepSeek AI. How can I assist you today?".toList false t

/-- The state owned by the chat interface component: the message list,
the loading flag and the optional API key. -/
structure ChatState where
  messages : List Message
  isLoading : Bool
  apiKey : Option (List Char)
deriving DecidableEq, Repr

/-- The state owned by the secure input component: the text box
contents and the time of the last accepted submission. -/
structure InputState where
  input : List Char
  lastMessageTime : Int
deriving DecidableEq, Repr

/-- Definition of `handleNewChat` from the chat interface: replace the message list
with the single seeded greeting (created at clock time `t`).  No other
field is written. -/
def handleNewChat (s : ChatState) (t : Int) : ChatState :=
  ChatState.mk [initialMessage t] s.isLoading s.apiKey

/-- The outcome of the single completion request issued by
`sendMessage`: a 2xx response carrying the optional first-choice
content, a non-2xx HTTP status, or a network failure that makes the
fetch itself throw. -/
inductive FetchOutcome
  | ok (choiceContent : Option (List Char))
  | httpError (status : Nat)
  | networkError
deriving DecidableEq, Repr

/-- Whether the completion request failed. -/
def FetchOutcome.isFailure : FetchOutcome → Bool
  | .ok _ => false
  | .httpError _ => true
  | .networkError => true

/-- The user-facing notices raised by `sendMessage`, one per toast or
thrown error in the source. -/
inductive Notice
  | apiKeyRequired
  | authenticationFailed
  | rateLimitExceeded
  | serviceUnavailable
  | networkFailure
deriving DecidableEq, Repr

/-- The error thrown for a non-2xx completion status, by status code. -/
def errorForStatus (status : Nat) : Notice :=
  if status = 401 then .authenticationFailed
  else if status = 429 then .rateLimitExceeded
  else .serviceUnavailable

/-- The fixed placeholder reply used when the first choice carries no
usable content. -/
def placeholderResponse : List Char :=
  "I'm sorry, I couldn't process that request.".toList

/-- The reply text extracted from a successful response body: the
first choice's content when it is present and truthy (non-empty), the
placeholder otherwise. -/
def extractReply (choiceContent : Option (List Char)) : List Char :=
  match choiceContent with
  | some c => if c.isEmpty then placeholderResponse else c
  | none => placeholderResponse

/-- Definition of `sendMessage` from the chat interface, run to completion for a
given request outcome.  With no API key it only raises a notice.
Otherwise it appends the user message, runs the request, appends the
assistant reply on success or raises the categorised notice on
failure, and finally clears the loading flag. -/
def sendMessage (s : ChatState) (content : List Char) (now : Int)
    (outcome : FetchOutcome) : ChatState × Option Notice :=
  match s.apiKey with
  | none => (s, some .apiKeyRequired)
  | some _ =>
    let userMessage : Message := Message.mk now content true now
    let withUser := s.messages ++ [userMessage]
    match outcome with
    | .ok choiceContent =>
      let aiMessage : Message :=
        Message.mk (now + 1) (extractReply choiceContent) false now
      (ChatState.mk (withUser ++ [aiMessage]) false s.apiKey, none)
    | .httpError status =>
      (ChatState.mk withUser false s.apiKey, some (errorForStatus status))
    | .networkError =>
      (ChatState.mk withUser false s.apiKey, some .networkFailure)

/-- Definition of `handleSubmit` from the secure input component: sanitize, validate,
and if valid and not loading send the sanitized text, clear the box and
record the acceptance time.  Returns the new input state, the text
passed to `onSendMessage` (if any) and the validation error (if any). -/
def handleSubmit (ist : InputState) (now : Int) (isLoading : Bool) :
    InputState × Option (List Char) × Option ValidationError :=
  let sanitized := sanitizeInput ist.input
  match validateInput sanitized now ist.lastMessageTime with
  | some e => (ist, none, some e)
  | none =>
    if isLoading then (ist, none, none)
    else (InputState.mk [] now, some sanitized, none)

/-- The observable result of one submission event: the chat state, the
input state, the text that was sent (if any), the notice raised (if
any) and the validation error (if any). -/
structure SubmitResult where
  chat : ChatState
  inputState : InputState
  sent : Option (List Char)
  notice : Option Notice
  validationError : Option ValidationError
deriving DecidableEq, Repr

/-- One whole submission: `handleSubmit` in the input component,
followed (when the text is accepted and forwarded) by `sendMessage`
run to completion with the given request outcome. -/
def submit (s : ChatState) (ist : InputState) (now : Int)
    (outcome : FetchOutcome) : SubmitResult :=
  match handleSubmit ist now s.isLoading with
  | (ist2, some text, verr) =>
    let r := sendMessage s text now outcome
    SubmitResult.mk r.1 ist2 (some text) r.2 verr
  | (ist2, none, verr) =>
    SubmitResult.mk s ist2 none none verr

/-- Definition of `handleInputChange` from the secure input component: accept the new
text box value only while it is within the maximum length. -/
def handleInputChange (ist : InputState) (value : List Char) : InputState :=
  if value.length ≤ MAX_MESSAGE_LENGTH then InputState.mk value ist.lastMessageTime
  else ist

/-- The user-driven events of the interface: resetting the chat,
setting the API key, editing the text box and submitting. -/
inductive Op
  | newChat (t : Int)
  | setApiKey (k : List Char)
  | typeInput (value : List Char)
  | submitEvent (now : Int) (outcome : FetchOutcome)

/-- One step of the interface state machine. -/
def step : ChatState × InputState → Op → ChatState × InputState
  | (s, ist), .newChat t => (handleNewChat s t, ist)
  | (s, ist), .setApiKey k => (ChatState.mk s.messages s.isLoading (some k), ist)
  | (s, ist), .typeInput v => (s, handleInputChange ist v)
  | (s, ist), .submitEvent now outcome =>
    let r := submit s ist now outcome
    (r.chat, r.inputState)

/-- The initial state of the interface, seeded at clock time `t`: one
assistant greeting, not loading, no key, empty text box. -/
def initState (t : Int) : ChatState × InputState :=
  (ChatState.mk [initialMessage t] false none, InputState.mk [] 0)

/-- The result of the local, pre-network part of
`validateAndSetApiKey` in the key-setup component: a blank key is
silently ignored, a key without the required prefix is rejected with a
format alert, and any other key proceeds to the live network check. -/
inductive KeyCheck
  | emptyBlocked
  | formatRejected
  | proceedToValidation
deriving DecidableEq, Repr

/-- The fixed required key front marker. -/
def requiredKeyChars : List Char := "sk-or-v1-".toList

/-- The local guard of `validateAndSetApiKey`: blank keys are ignored,
keys not starting with the required marker are rejected, all others go
on to the network validation. -/
def validateAndSetApiKeyCheck (apiKey : List Char) : KeyCheck :=
  if (jsTrim apiKey).isEmpty then .emptyBlocked
  else if requiredKeyChars.isPrefixOf apiKey then .proceedToValidation
  else .formatRejected

/-- A chat state that is mid-request: one in-flight completion, so the
loading flag is set. -/
def loadingChatState : ChatState :=
  ChatState.mk [initialMessage 0] true none

/-- The spec's three user-facing failure categories for a failed
completion request. -/
inductive ErrorCategory
  | authFailure
  | rateLimiting
  | unavailable
deriving DecidableEq, Repr

/-- Classification of the notices raised by `sendMessage` into the
spec's three failure categories; the missing-key notice is not a
completion-request failure and has no category. -/
def noticeCategory : Notice → Option ErrorCategory
  | .apiKeyRequired => none
  | .authenticationFailed => some .authFailure
  | .rateLimitExceeded => some .rateLimiting
  | .serviceUnavailable => some .unavailable
  | .networkFailure => some .unavailable

/-- Stated from the spec's words: the category a failed request is to
be reported under — authentication failure for status 401, rate
limiting for 429, generic unavailability for any other status or for a
network error. -/
def specFailureCategory : FetchOutcome → ErrorCategory
  | .httpError status =>
    if status = 401 then .authFailure
    else if status = 429 then .rateLimiting
    else .unavailable
  | _ => .unavailable

/-- Number of assistant-authored messages in a conversation. -/
def assistantCount (l : List Message) : Nat := l.countP (fun m => !m.isUser)

/- ### Helper lemmas -/

theorem dropWhile_dropWhile (p : Char → Bool) (l : List Char) :
    (l.dropWhile p).dropWhile p = l.dropWhile p := by
  induction l with
  | nil => rfl
  | cons c cs ih =>
    by_cases h : p c
    · simp [List.dropWhile_cons, h, ih]
    · simp [List.dropWhile_cons, h]

theorem dropWhile_head_not (p : Char → Bool) :
    ∀ (l : List Char) (c : Char), (l.dropWhile p).head? = some c → p c = false := by
  intro l
  induction l with
  | nil => intro c h; simp [List.dropWhile] at h
  | cons a as ih =>
    intro c h
    by_cases hp : p a
    · exact ih c (by simpa [List.dropWhile_cons, hp] using h)
    · rw [List.dropWhile_cons, if_neg (by simp [hp])] at h
      simp only [List.head?_cons, Option.some.injEq] at h
      subst h
      simp [hp]

theorem dropWhile_eq_self_of_head (p : Char → Bool) (l : List Char) (c : Char)
    (hh : l.head? = some c) (hp : p c = false) : l.dropWhile p = l := by
  cases l with
  | nil => simp at hh
  | cons a as =>
    simp only [List.head?_cons, Option.some.injEq] at hh
    subst hh
    rw [List.dropWhile_cons, if_neg (by simp [hp])]

theorem dropWhile_ex_suffix (p : Char → Bool) :
    ∀ l : List Char, ∃ t, l = t ++ l.dropWhile p := by
  intro l
  induction l with
  | nil => exact ⟨[], rfl⟩
  | cons c cs ih =>
    by_cases h : p c
    · obtain ⟨t, ht⟩ := ih
      exact ⟨c :: t, by rw [List.dropWhile_cons, if_pos (by simp [h])]; simpa using ht⟩
    · exact ⟨[], by rw [List.dropWhile_cons, if_neg (by simp [h])]; rfl⟩

theorem mem_dropWhile_of_not (p : Char → Bool) (l : List Char) (x : Char)
    (hx : x ∈ l) (hpx : p x = false) : x ∈ l.dropWhile p := by
  induction l with
  | nil => cases hx
  | cons c cs ih =>
    by_cases h : p c
    · rw [List.dropWhile_cons, if_pos (by simp [h])]
      rcases List.mem_cons.mp hx with hxc | hxcs
      · subst hxc; rw [h] at hpx; cases hpx
      · exact ih hxcs
    · rw [List.dropWhile_cons, if_neg (by simp [h])]
      exact hx

theorem mem_jsTrim_of_not_ws (l : List Char) (x : Char)
    (hx : x ∈ l) (hpx : isJsWS x = false) : x ∈ jsTrim l := by
  unfold jsTrim
  have h1 := mem_dropWhile_of_not isJsWS l x hx hpx
  have h2 : x ∈ (l.dropWhile isJsWS).reverse := List.mem_reverse.mpr h1
  have h3 := mem_dropWhile_of_not isJsWS _ x h2 hpx
  exact List.mem_reverse.mpr h3

theorem jsTrim_idem (l : List Char) : jsTrim (jsTrim l) = jsTrim l := by
  have key : (((l.dropWhile isJsWS).reverse.dropWhile isJsWS).reverse).dropWhile isJsWS
      = ((l.dropWhile isJsWS).reverse.dropWhile isJsWS).reverse := by
    cases hBe : (l.dropWhile isJsWS).reverse.dropWhile isJsWS with
    | nil => simp
    | cons b bs =>
      have hAne : l.dropWhile isJsWS ≠ [] := by
        intro hA
        rw [hA] at hBe
        simp at hBe
      obtain ⟨a, as, hAeq⟩ : ∃ a as, l.dropWhile isJsWS = a :: as := by
        cases hA : l.dropWhile isJsWS with
        | nil => exact absurd hA hAne
        | cons a as => exact ⟨a, as, rfl⟩
      have hpa : isJsWS a = false :=
        dropWhile_head_not isJsWS l a (by rw [hAeq]; rfl)
      have hlastB : ((l.dropWhile isJsWS).reverse.dropWhile isJsWS).getLast? = some a := by
        obtain ⟨t, ht⟩ := dropWhile_ex_suffix isJsWS (l.dropWhile isJsWS).reverse
        have h1 : ((l.dropWhile isJsWS).reverse).getLast?
            = ((l.dropWhile isJsWS).reverse.dropWhile isJsWS).getLast? := by
          conv_lhs => rw [ht]
          exact List.getLast?_append_of_ne_nil t (by rw [hBe]; simp)
        have h2 : ((l.dropWhile isJsWS).reverse).getLast? = some a := by
          rw [List.getLast?_eq_head?_reverse, List.reverse_reverse, hAeq]
          rfl
        rw [← h1, h2]
      have hhead : (((l.dropWhile isJsWS).reverse.dropWhile isJsWS).reverse).head? = some a := by
        rw [List.head?_reverse]
        exact hlastB
      rw [hBe] at hhead
      exact dropWhile_eq_self_of_head isJsWS _ a hhead hpa
  show ((((((l.dropWhile isJsWS).reverse.dropWhile isJsWS).reverse).dropWhile
      isJsWS).reverse).dropWhile isJsWS).reverse = _
  rw [key, List.reverse_reverse, dropWhile_dropWhile]
  rfl

theorem scanReplaceAux_eq_self (m : List Char → Option Nat) :
    ∀ (fuel : Nat) (l : List Char), noMatch m l = true → scanReplaceAux m fuel l = l := by
  intro fuel
  induction fuel with
  | zero =>
    intro l _
    cases l <;> rfl
  | succ f ih =>
    intro l h
    cases l with
    | nil => rfl
    | cons c cs =>
      simp only [noMatch, Bool.and_eq_true, Option.isNone_iff_eq_none] at h
      obtain ⟨h1, h2⟩ := h
      simp [scanReplaceAux, h1, ih cs h2]

theorem scanReplace_eq_self (m : List Char → Option Nat) (l : List Char)
    (h : noMatch m l = true) : scanReplace m l = l :=
  scanReplaceAux_eq_self m l.length l h

theorem submit_sent_inputState (s : ChatState) (ist : InputState) (now : Int)
    (outcome : FetchOutcome) (t : List Char)
    (h : (submit s ist now outcome).sent = some t) :
    (submit s ist now outcome).inputState = InputState.mk [] now := by
  unfold submit handleSubmit at h ⊢
  cases hv : validateInput (sanitizeInput ist.input) now ist.lastMessageTime with
  | some e => simp [hv] at h
  | none =>
    cases hl : s.isLoading with
    | true => simp [hv, hl] at h
    | false => simp [hv, hl]

theorem sendMessage_messages_extend (s : ChatState) (content : List Char)
    (now : Int) (outcome : FetchOutcome) :
    ∃ suf, (sendMessage s content now outcome).1.messages = s.messages ++ suf := by
  cases hk : s.apiKey with
  | none => exact ⟨[], by simp [sendMessage, hk]⟩
  | some k =>
    cases outcome with
    | ok c =>
      exact ⟨[Message.mk now content true now,
        Message.mk (now + 1) (extractReply c) false now], by simp [sendMessage, hk]⟩
    | httpError st =>
      exact ⟨[Message.mk now content true now], by simp [sendMessage, hk]⟩
    | networkError =>
      exact ⟨[Message.mk now content true now], by simp [sendMessage, hk]⟩

theorem submit_messages_extend (s : ChatState) (ist : InputState) (now : Int)
    (outcome : FetchOutcome) :
    ∃ suf, (submit s ist now outcome).chat.messages = s.messages ++ suf := by
  unfold submit handleSubmit
  cases hv : validateInput (sanitizeInput ist.input) now ist.lastMessageTime with
  | some e => exact ⟨[], by simp [hv]⟩
  | none =>
    cases hl : s.isLoading with
    | true => exact ⟨[], by simp [hv, hl]⟩
    | false =>
      obtain ⟨suf, hsuf⟩ :=
        sendMessage_messages_extend s (sanitizeInput ist.input) now outcome
      exact ⟨suf, by simp [hv, hl, hsuf]⟩

theorem step_messages (st : ChatState × InputState) (op : Op) :
    (∃ suf, (step st op).1.messages = st.1.messages ++ suf) ∨
    (∃ u, (step st op).1.messages = [initialMessage u]) := by
  obtain ⟨s, ist⟩ := st
  cases op with
  | newChat t => exact Or.inr ⟨t, rfl⟩
  | setApiKey k => exact Or.inl ⟨[], by simp [step]⟩
  | typeInput v => exact Or.inl ⟨[], by simp [step]⟩
  | submitEvent now outcome =>
    obtain ⟨suf, hsuf⟩ := submit_messages_extend s ist now outcome
    exact Or.inl ⟨suf, by simp [step, hsuf]⟩

theorem foldl_step_ne_nil :
    ∀ (ops : List Op) (st : ChatState × InputState),
      st.1.messages ≠ [] → (ops.foldl step st).1.messages ≠ [] := by
  intro ops
  induction ops with
  | nil => intro st h; exact h
  | cons op rest ih =>
    intro st h
    rw [List.foldl_cons]
    apply ih
    rcases step_messages st op with ⟨suf, hs⟩ | ⟨u, hs⟩
    · rw [hs]
      intro hcon
      exact h (List.append_eq_nil.mp hcon).1
    · rw [hs]
      simp

/- ### Claim theorems -/

/-- Claim C1, counterexample: `sanitizeInput` is not idempotent.  On
the input string of the characters of "javajavascript:script:" one
application leaves "javascript:" (deleting the embedded occurrence of
the scheme reassembles a new one), while a second application deletes
that too. -/
theorem sanitizeInput_not_idempotent :
    sanitizeInput (sanitizeInput "javajavascript:script:".toList)
      ≠ sanitizeInput "javajavascript:script:".toList := by decide

/-- Claim C1, amended: `sanitizeInput` is idempotent on every input
string whose once-sanitized form contains no occurrence of a script
block, of the stripped URI scheme, or of an inline event-handler
attribute; in general a second application can strip further content. -/
theorem sanitizeInput_idem_of_noMatch (s : List Char)
    (h1 : noMatch matchScript (sanitizeInput s) = true)
    (h2 : noMatch matchJavascriptScheme (sanitizeInput s) = true)
    (h3 : noMatch matchOnAttr (sanitizeInput s) = true) :
    sanitizeInput (sanitizeInput s) = sanitizeInput s := by
  show jsTrim (scanReplace matchOnAttr (scanReplace matchJavascriptScheme
      (scanReplace matchScript (sanitizeInput s)))) = sanitizeInput s
  rw [scanReplace_eq_self _ _ h1, scanReplace_eq_self _ _ h2,
    scanReplace_eq_self _ _ h3]
  conv_lhs => rw [sanitizeInput]
  rw [jsTrim_idem, sanitizeInput]

/-- Witness for the amended claim C1 at the concrete input
"  hello  ". -/
theorem sanitizeInput_idem_of_noMatch_witness :
    noMatch matchScript (sanitizeInput "  hello  ".toList) = true ∧
    noMatch matchJavascriptScheme (sanitizeInput "  hello  ".toList) = true ∧
    noMatch matchOnAttr (sanitizeInput "  hello  ".toList) = true ∧
    sanitizeInput (sanitizeInput "  hello  ".toList)
      = sanitizeInput "  hello  ".toList :=
  ⟨by decide, by decide, by decide,
    sanitizeInput_idem_of_noMatch _ (by decide) (by decide) (by decide)⟩

/-- Claim C2, counterexample: `handleNewChat` does not clear the
loading flag.  Starting from a state whose PendingState is set, the
reset leaves it set. -/
theorem handleNewChat_keeps_pending :
    loadingChatState.isLoading = true ∧
    (handleNewChat loadingChatState 5).isLoading = true :=
  ⟨rfl, rfl⟩

/-- Claim C2, amended: `handleNewChat` replaces the message sequence
with exactly one seeded assistant-authored message and leaves every
other field, PendingState included, unchanged. -/
theorem handleNewChat_resets_messages (s : ChatState) (t : Int) :
    (handleNewChat s t).messages = [initialMessage t] ∧
    (initialMessage t).isUser = false ∧
    (handleNewChat s t).isLoading = s.isLoading ∧
    (handleNewChat s t).apiKey = s.apiKey :=
  ⟨rfl, rfl, rfl, rfl⟩

/-- Claim C3: starting from a state with no request in flight, after a
whole submission — whatever its outcome: success, input-guard
rejection, missing credential, HTTP error or network error — the
loading flag is false again. -/
theorem submit_clears_pending (s : ChatState) (ist : InputState) (now : Int)
    (outcome : FetchOutcome) (h : s.isLoading = false) :
    (submit s ist now outcome).chat.isLoading = false := by
  cases hv : validateInput (sanitizeInput ist.input) now ist.lastMessageTime with
  | some e => simp [submit, handleSubmit, hv, h]
  | none =>
    cases hk : s.apiKey with
    | none => simp [submit, handleSubmit, sendMessage, hv, hk, h]
    | some k =>
      cases outcome <;> simp [submit, handleSubmit, sendMessage, hv, hk, h]

/-- Witness for claim C3 at a concrete state and outcome. -/
theorem submit_clears_pending_witness :
    (ChatState.mk [initialMessage 0] false none).isLoading = false ∧
    (submit (ChatState.mk [initialMessage 0] false none)
      (InputState.mk "hi".toList 0) 2000 FetchOutcome.networkError).chat.isLoading
        = false :=
  ⟨rfl, submit_clears_pending _ _ _ _ rfl⟩

/-- Claim C4: a failed completion request raises exactly one notice,
its category is authentication failure for HTTP 401, rate limiting for
HTTP 429 and generic unavailability for any other status or a network
error, and the number of assistant messages does not change. -/
theorem sendMessage_failure_category (s : ChatState) (k content : List Char)
    (now : Int) (outcome : FetchOutcome)
    (hk : s.apiKey = some k) (hf : FetchOutcome.isFailure outcome = true) :
    ∃ n, (sendMessage s content now outcome).2 = some n ∧
      noticeCategory n = some (specFailureCategory outcome) ∧
      assistantCount (sendMessage s content now outcome).1.messages
        = assistantCount s.messages := by
  cases outcome with
  | ok c => simp [FetchOutcome.isFailure] at hf
  | httpError status =>
    refine ⟨errorForStatus status, ?_, ?_, ?_⟩
    · simp [sendMessage, hk]
    · by_cases h1 : status = 401
      · simp [errorForStatus, specFailureCategory, noticeCategory, h1]
      · by_cases h2 : status = 429 <;>
          simp [errorForStatus, specFailureCategory, noticeCategory, h1, h2]
    · simp [sendMessage, hk, assistantCount]
  | networkError =>
    refine ⟨Notice.networkFailure, ?_, ?_, ?_⟩
    · simp [sendMessage, hk]
    · rfl
    · simp [sendMessage, hk, assistantCount]

/-- Witness for claim C4 at a concrete state and a 401 failure. -/
theorem sendMessage_failure_category_witness :
    (ChatState.mk [initialMessage 0] false (some "k".toList)).apiKey
      = some "k".toList ∧
    FetchOutcome.isFailure (FetchOutcome.httpError 401) = true ∧
    ∃ n, (sendMessage (ChatState.mk [initialMessage 0] false (some "k".toList))
        "hi".toList 5 (FetchOutcome.httpError 401)).2 = some n ∧
      noticeCategory n = some (specFailureCategory (FetchOutcome.httpError 401)) ∧
      assistantCount (sendMessage
          (ChatState.mk [initialMessage 0] false (some "k".toList))
          "hi".toList 5 (FetchOutcome.httpError 401)).1.messages
        = assistantCount (ChatState.mk [initialMessage 0] false
            (some "k".toList)).messages :=
  ⟨rfl, rfl, sendMessage_failure_category _ _ _ _ _ rfl rfl⟩

/-- Claim C5, counterexample: with HTTP 200 and a present but empty
first-choice content, the appended assistant text is the fixed
placeholder, not the (empty) first-choice content. -/
theorem sendMessage_empty_choice_placeholder :
    (sendMessage (ChatState.mk [initialMessage 0] false (some "k".toList))
        "hi".toList 5 (FetchOutcome.ok (some []))).1.messages
      = [initialMessage 0, Message.mk 5 "hi".toList true 5,
         Message.mk 6 placeholderResponse false 5] ∧
    placeholderResponse ≠ ([] : List Char) :=
  ⟨rfl, by decide⟩

/-- Claim C5, amended: with a credential present, a successful
completion appends the user message and exactly one new assistant
message; the assistant text equals the first choice's content when
that content is present and non-empty, and is the fixed placeholder
when the content is absent or empty. -/
theorem sendMessage_success_appends (s : ChatState) (k content : List Char)
    (now : Int) (choiceContent : Option (List Char))
    (hk : s.apiKey = some k) :
    ∃ u a : Message,
      (sendMessage s content now (FetchOutcome.ok choiceContent)).1.messages
        = s.messages ++ [u, a] ∧
      u.isUser = true ∧ u.content = content ∧ a.isUser = false ∧
      assistantCount (s.messages ++ [u, a]) = assistantCount s.messages + 1 ∧
      (∀ c, choiceContent = some c → c ≠ [] → a.content = c) ∧
      ((choiceContent = none ∨ choiceContent = some []) →
        a.content = placeholderResponse) := by
  refine ⟨Message.mk now content true now,
    Message.mk (now + 1) (extractReply choiceContent) false now,
    ?_, rfl, rfl, rfl, ?_, ?_, ?_⟩
  · simp [sendMessage, hk]
  · simp [assistantCount]
  · intro c hc hcne
    subst hc
    cases c with
    | nil => exact absurd rfl hcne
    | cons x xs => rfl
  · rintro (h | h) <;> subst h <;> rfl

/-- Witness for the amended claim C5 at a concrete state and body. -/
theorem sendMessage_success_appends_witness :
    (ChatState.mk [initialMessage 0] false (some "k".toList)).apiKey
      = some "k".toList ∧
    ∃ u a : Message,
      (sendMessage (ChatState.mk [initialMessage 0] false (some "k".toList))
          "hi".toList 5 (FetchOutcome.ok (some "yes".toList))).1.messages
        = (ChatState.mk [initialMessage 0] false
            (some "k".toList)).messages ++ [u, a] ∧
      u.isUser = true ∧ u.content = "hi".toList ∧ a.isUser = false ∧
      assistantCount ((ChatState.mk [initialMessage 0] false
          (some "k".toList)).messages ++ [u, a])
        = assistantCount (ChatState.mk [initialMessage 0] false
            (some "k".toList)).messages + 1 ∧
      (∀ c, (some "yes".toList : Option (List Char)) = some c → c ≠ [] →
        a.content = c) ∧
      (((some "yes".toList : Option (List Char)) = none ∨
          (some "yes".toList : Option (List Char)) = some []) →
        a.content = placeholderResponse) :=
  ⟨rfl, sendMessage_success_appends _ _ _ _ _ rfl⟩

/-- Claim C6: if a first submission is accepted at time `now1`, then a
second submission whose sanitized text is non-empty and within the
maximum length, made before the fixed minimum interval has elapsed, is
rejected with the rate-limit reason and leaves the conversation length
unchanged. -/
theorem submit_rate_limited_second (s0 : ChatState) (ist0 : InputState)
    (now1 now2 : Int) (o1 o2 : FetchOutcome) (t0 text2 : List Char)
    (hsent : (submit s0 ist0 now1 o1).sent = some t0)
    (hwin : now2 - now1 < RATE_LIMIT_DELAY)
    (hne : (jsTrim (sanitizeInput text2)).isEmpty = false)
    (hlen : (sanitizeInput text2).length ≤ MAX_MESSAGE_LENGTH) :
    (submit (submit s0 ist0 now1 o1).chat
        (InputState.mk text2 (submit s0 ist0 now1 o1).inputState.lastMessageTime)
        now2 o2).validationError = some ValidationError.rateLimited ∧
    (submit (submit s0 ist0 now1 o1).chat
        (InputState.mk text2 (submit s0 ist0 now1 o1).inputState.lastMessageTime)
        now2 o2).chat.messages.length
      = (submit s0 ist0 now1 o1).chat.messages.length := by
  have hist : (submit s0 ist0 now1 o1).inputState = InputState.mk [] now1 :=
    submit_sent_inputState s0 ist0 now1 o1 t0 hsent
  rw [hist]
  have hval : validateInput (sanitizeInput text2) now2 now1
      = some ValidationError.rateLimited := by
    simp [validateInput, hne, hwin, not_lt.mpr hlen]
  constructor <;> simp [submit, handleSubmit, hval]

/-- Witness for claim C6 at concrete states, times and texts. -/
theorem submit_rate_limited_second_witness :
    (submit (ChatState.mk [initialMessage 0] false (some "k".toList))
        (InputState.mk "hi".toList 0) 2000
        (FetchOutcome.ok (some "ok".toList))).sent = some "hi".toList ∧
    (2500 : Int) - 2000 < RATE_LIMIT_DELAY ∧
    (jsTrim (sanitizeInput "yo".toList)).isEmpty = false ∧
    (sanitizeInput "yo".toList).length ≤ MAX_MESSAGE_LENGTH ∧
    ((submit (submit (ChatState.mk [initialMessage 0] false (some "k".toList))
          (InputState.mk "hi".toList 0) 2000
          (FetchOutcome.ok (some "ok".toList))).chat
        (InputState.mk "yo".toList
          (submit (ChatState.mk [initialMessage 0] false (some "k".toList))
            (InputState.mk "hi".toList 0) 2000
            (FetchOutcome.ok (some "ok".toList))).inputState.lastMessageTime)
        2500 (FetchOutcome.ok none)).validationError
      = some ValidationError.rateLimited ∧
    (submit (submit (ChatState.mk [initialMessage 0] false (some "k".toList))
          (InputState.mk "hi".toList 0) 2000
          (FetchOutcome.ok (some "ok".toList))).chat
        (InputState.mk "yo".toList
          (submit (ChatState.mk [initialMessage 0] false (some "k".toList))
            (InputState.mk "hi".toList 0) 2000
            (FetchOutcome.ok (some "ok".toList))).inputState.lastMessageTime)
        2500 (FetchOutcome.ok none)).chat.messages.length
      = (submit (ChatState.mk [initialMessage 0] false (some "k".toList))
          (InputState.mk "hi".toList 0) 2000
          (FetchOutcome.ok (some "ok".toList))).chat.messages.length) :=
  ⟨by decide, by decide, by decide, by decide,
    submit_rate_limited_second
      (ChatState.mk [initialMessage 0] false (some "k".toList))
      (InputState.mk "hi".toList 0) 2000 2500
      (FetchOutcome.ok (some "ok".toList)) (FetchOutcome.ok none)
      "hi".toList "yo".toList
      (by decide) (by decide) (by decide) (by decide)⟩

/-- Claim C7: a failed validation reports exactly one rejection
reason, determined in the fixed source order — empty post-trim text
first, then over-long text, then a submission inside the minimum
interval — and validation passes exactly when all three checks pass. -/
theorem validateInput_order (text : List Char) (now lastMessageTime : Int) :
    (validateInput text now lastMessageTime = some ValidationError.empty ↔
      (jsTrim text).isEmpty = true) ∧
    (validateInput text now lastMessageTime = some ValidationError.tooLong ↔
      ((jsTrim text).isEmpty = false ∧ text.length > MAX_MESSAGE_LENGTH)) ∧
    (validateInput text now lastMessageTime = some ValidationError.rateLimited ↔
      ((jsTrim text).isEmpty = false ∧ text.length ≤ MAX_MESSAGE_LENGTH ∧
        now - lastMessageTime < RATE_LIMIT_DELAY)) ∧
    (validateInput text now lastMessageTime = none ↔
      ((jsTrim text).isEmpty = false ∧ text.length ≤ MAX_MESSAGE_LENGTH ∧
        ¬now - lastMessageTime < RATE_LIMIT_DELAY)) := by
  cases h1 : (jsTrim text).isEmpty <;>
    by_cases h2 : text.length > MAX_MESSAGE_LENGTH <;>
      by_cases h3 : now - lastMessageTime < RATE_LIMIT_DELAY <;>
        simp [validateInput, h1, h2, h3, not_lt] <;>
          omega

/-- Claim C8: every operation of the interface either extends the
message sequence or replaces it with the single seeded greeting, and
along every operation sequence from the initial state the conversation
is never empty. -/
theorem conversation_never_empty :
    (∀ (st : ChatState × InputState) (op : Op),
      (∃ suf, (step st op).1.messages = st.1.messages ++ suf) ∨
      (∃ u, (step st op).1.messages = [initialMessage u])) ∧
    (∀ (t : Int) (ops : List Op),
      (ops.foldl step (initState t)).1.messages ≠ []) :=
  ⟨step_messages, fun t ops =>
    foldl_step_ne_nil ops (initState t) (by simp [initState])⟩

/-- Claim C9: the local key-format guard lets a key through to the
live validation exactly when it starts with the fixed required
marker; in particular "sk-or-v1-abc" proceeds and "abc123" is
rejected before any network call. -/
theorem validateFormat_iff :
    (∀ raw : List Char,
      validateAndSetApiKeyCheck raw = KeyCheck.proceedToValidation ↔
        requiredKeyChars.isPrefixOf raw = true) ∧
    validateAndSetApiKeyCheck "sk-or-v1-abc".toList
      = KeyCheck.proceedToValidation ∧
    validateAndSetApiKeyCheck "abc123".toList = KeyCheck.formatRejected := by
  refine ⟨?_, by decide, by decide⟩
  intro raw
  constructor
  · intro h
    by_cases h1 : (jsTrim raw).isEmpty = true
    · simp [validateAndSetApiKeyCheck, h1] at h
    · by_cases h2 : requiredKeyChars.isPrefixOf raw = true
      · exact h2
      · simp [validateAndSetApiKeyCheck, h1, h2] at h
  · intro h
    have hpre : requiredKeyChars <+: raw := List.isPrefixOf_iff_prefix.mp h
    obtain ⟨t, ht⟩ := hpre
    have hs : 's' ∈ raw := by
      rw [← ht]
      exact List.mem_append.mpr (Or.inl (by decide))
    have hmem : 's' ∈ jsTrim raw := mem_jsTrim_of_not_ws raw 's' hs (by decide)
    have hne : (jsTrim raw).isEmpty = false :=
      List.isEmpty_eq_false.mpr (List.ne_nil_of_mem hmem)
    simp [validateAndSetApiKeyCheck, hne, h]

/-- Claim C10: with a credential present, a submission whose
completion request fails still changes the conversation: the state
after the failure is exactly the prior state plus the one user message
carrying the submitted text. -/
theorem sendMessage_failure_appends_user (s : ChatState) (k content : List Char)
    (now : Int) (outcome : FetchOutcome)
    (hk : s.apiKey = some k) (hf : FetchOutcome.isFailure outcome = true) :
    (sendMessage s content now outcome).1.messages
      = s.messages ++ [Message.mk now content true now] := by
  cases outcome with
  | ok c => simp [FetchOutcome.isFailure] at hf
  | httpError st => simp [sendMessage, hk]
  | networkError => simp [sendMessage, hk]

/-- Witness for claim C10 at a concrete state and a 500 failure. -/
theorem sendMessage_failure_appends_user_witness :
    (ChatState.mk [initialMessage 0] false (some "k".toList)).apiKey
      = some "k".toList ∧
    FetchOutcome.isFailure (FetchOutcome.httpError 500) = true ∧
    (sendMessage (ChatState.mk [initialMessage 0] false (some "k".toList))
        "hi".toList 5 (FetchOutcome.httpError 500)).1.messages
      = (ChatState.mk [initialMessage 0] false (some "k".toList)).messages
          ++ [Message.mk 5 "hi".toList true 5] :=
  ⟨rfl, rfl, sendMessage_failure_appends_user _ _ _ _ _ rfl rfl⟩
